import Mathlib

/-!
Verification development for the Multi-Format Intake Agent
(classification-and-routing pipeline with session memory).

The Python sources are shallowly embedded: pure functions become Lean
functions, the Redis session store becomes an explicit `RedisState` value
threaded through the operations, library boundaries (PyPDF2 page
extraction, the external text-generation call, `eval`) become explicit
parameters describing the boundary's outcome, and Python floats produced
by exact decimal arithmetic are modelled as rationals.
-/

/-- Python runtime values as they flow through this pipeline: the program
only manipulates `None`, booleans, ints, floats, strings, lists, dicts
with string keys, and raw byte strings.  JSON's `Infinity`/`NaN` floats
get their own constructors; finite floats from JSON decimals are modelled
exactly as rationals. -/
inductive PyVal where
  | none
  | bool (b : Bool)
  | int (n : Int)
  | num (q : ℚ)
  | str (s : String)
  | list (xs : List PyVal)
  | dict (kvs : List (String × PyVal))
  | bytes (bs : List Nat)
  | inf (neg : Bool)
  | nan

/-- Association-list lookup, mirroring Python dict access (our dict
representation keeps the first binding for a key authoritative). -/
def alookup {α : Type} : List (String × α) → String → Option α
  | [], _ => Option.none
  | (k2, v) :: rest, k => if k2 = k then some v else alookup rest k

/-- Association-list update mirroring Python dict item assignment: replace
in place if the key exists, else append at the end (Python dicts keep
insertion order). -/
def aset {α : Type} : List (String × α) → String → α → List (String × α)
  | [], k, v => [(k, v)]
  | (k2, v2) :: rest, k, v =>
    if k2 = k then (k2, v) :: rest else (k2, v2) :: aset rest k v

/-- Apply a sequence of dict item assignments in order (the semantics of
`dict.update` / iterating `HSET` field writes). -/
def asetAll {α : Type} (m : List (String × α)) (kvs : List (String × α)) :
    List (String × α) :=
  kvs.foldl (fun acc kv => aset acc kv.1 kv.2) m

/-- Python `str.lower` (the sources only ever lower ASCII text). -/
def pyLower (s : String) : String := ⟨s.data.map Char.toLower⟩

/-- Whitespace stripped by Python `str.strip()`. -/
def isPyWs (c : Char) : Bool :=
  c == ' ' || c == '\t' || c == '\n' || c == '\r' || c == '\x0b' || c == '\x0c'

/-- Python `str.strip()` over a character list. -/
def pyStripList (cs : List Char) : List Char :=
  (cs.dropWhile isPyWs).rdropWhile isPyWs

/-- Python `str.strip()`. -/
def pyStrip (s : String) : String := ⟨pyStripList s.data⟩

/-- Substring containment over character lists: `needle in hay`. -/
def containsSub (needle : List Char) : List Char → Bool
  | [] => needle.isEmpty
  | c :: rest => needle.isPrefixOf (c :: rest) || containsSub needle rest

/-- Python `needle in hay` on strings. -/
def pyIn (needle hay : String) : Bool := containsSub needle.data hay.data

/-- Python `s.startswith(pre)`. -/
def pyStarts (pre s : String) : Bool := pre.data.isPrefixOf s.data

/-- Lower-case hex digit for a nibble. -/
def hexDigitChar (n : Nat) : Char :=
  if n < 10 then Char.ofNat (48 + n) else Char.ofNat (87 + n)

/-- One byte of a Python `bytes` repr: printable ASCII shown as itself,
backslash escapes for backslash, the active quote, tab/newline/return,
and `\xhh` for everything else. -/
def byteReprEsc (squote : Bool) (b : Nat) : List Char :=
  if b = 92 then ['\\', '\\']
  else if squote ∧ b = 39 then ['\\', '\x27']
  else if ¬ squote ∧ b = 34 then ['\\', '"']
  else if b = 9 then ['\\', 't']
  else if b = 10 then ['\\', 'n']
  else if b = 13 then ['\\', 'r']
  else if 32 ≤ b ∧ b ≤ 126 then [Char.ofNat b]
  else ['\\', 'x', hexDigitChar (b / 16), hexDigitChar (b % 16)]

/-- Python `repr` of a bytes value (`str(b'...')`): single-quoted unless
the bytes contain a single quote and no double quote, in which case
double quotes are used. -/
def pyBytesRepr (bs : List Nat) : String :=
  if 39 ∈ bs ∧ ¬ 34 ∈ bs then
    "b\"" ++ ⟨(bs.map (byteReprEsc false)).flatten⟩ ++ "\""
  else
    "b'" ++ ⟨(bs.map (byteReprEsc true)).flatten⟩ ++ "'"

mutual

/-- Python `repr` of a value (exact on the scalars and bytes the pipeline
stores; containers in Python display style; floats best effort). -/
def pyRepr : PyVal → String
  | .none => "None"
  | .bool b => if b then "True" else "False"
  | .int n => toString n
  | .num q => toString q
  | .str s => "'" ++ s ++ "'"
  | .list xs => "[" ++ String.intercalate ", " (pyReprList xs) ++ "]"
  | .dict kvs => "\x7b" ++ String.intercalate ", " (pyReprPairs kvs) ++ "\x7d"
  | .bytes bs => pyBytesRepr bs
  | .inf neg => if neg then "-inf" else "inf"
  | .nan => "nan"

/-- Helper for `pyRepr` on list elements. -/
def pyReprList : List PyVal → List String
  | [] => []
  | x :: xs => pyRepr x :: pyReprList xs

/-- Helper for `pyRepr` on dict entries. -/
def pyReprPairs : List (String × PyVal) → List String
  | [] => []
  | (k, v) :: kvs => ("'" ++ k ++ "': " ++ pyRepr v) :: pyReprPairs kvs

end

/-- Python `str(v)`: the string itself for strings, `repr` otherwise. -/
def pyStr : PyVal → String
  | .str s => s
  | v => pyRepr v

/-- Python truthiness, as used by `if content:` / `if file_type and ...`. -/
def pyTruthy : PyVal → Bool
  | .none => false
  | .bool b => b
  | .int n => n != 0
  | .num q => q != 0
  | .str s => s != ""
  | .list xs => !xs.isEmpty
  | .dict kvs => !kvs.isEmpty
  | .bytes bs => !bs.isEmpty
  | .inf _ => true
  | .nan => true

/-! ## A model of Python `json.loads` / `json.dumps`

The store serialises structured fields with `json.dumps` and `get_session`
re-parses every stored field with `json.loads`, so a faithful JSON parser
is part of the embedding.  The parser below follows the `json` module's
strict grammar (leading-zero rejection, string escapes, `NaN`/`Infinity`
extensions) with explicit fuel for nested values. -/

/-- JSON whitespace accepted by Python's `json` module. -/
def isJsonWs (c : Char) : Bool :=
  c == ' ' || c == '\t' || c == '\n' || c == '\r'

/-- Skip JSON whitespace. -/
def skipJWs (cs : List Char) : List Char := cs.dropWhile isJsonWs

/-- Value of a hex digit, if any. -/
def hexVal (c : Char) : Option Nat :=
  if '0' ≤ c ∧ c ≤ '9' then some (c.toNat - 48)
  else if 'a' ≤ c ∧ c ≤ 'f' then some (c.toNat - 87)
  else if 'A' ≤ c ∧ c ≤ 'F' then some (c.toNat - 55)
  else Option.none

/-- Single-character JSON string escapes. -/
def unescape1 (c : Char) : Option Char :=
  if c = '"' then some '"'
  else if c = '\\' then some '\\'
  else if c = '/' then some '/'
  else if c = 'b' then some '\x08'
  else if c = 'f' then some '\x0c'
  else if c = 'n' then some '\n'
  else if c = 'r' then some '\r'
  else if c = 't' then some '\t'
  else Option.none

/-- Decode one escape sequence (the input starts after the backslash),
returning the decoded character and the rest of the input. -/
def unescapeTok : List Char → Option (Char × List Char)
  | 'u' :: h1 :: h2 :: h3 :: h4 :: rest3 =>
    match hexVal h1, hexVal h2, hexVal h3, hexVal h4 with
    | some a, some b, some c2, some d =>
      some (Char.ofNat (4096 * a + 256 * b + 16 * c2 + d), rest3)
    | _, _, _, _ => Option.none
  | e :: rest2 => (unescape1 e).map (fun ec => (ec, rest2))
  | [] => Option.none

/-- Parse the body of a JSON string literal (the opening quote already
consumed), returning the decoded characters and the rest of the input. -/
def parseStrBody : Nat → List Char → Option (List Char × List Char)
  | 0, _ => Option.none
  | _ + 1, [] => Option.none
  | fuel + 1, c :: rest =>
    if c = '"' then some ([], rest)
    else if c = '\\' then
      match unescapeTok rest with
      | some (ec, rest2) =>
        (parseStrBody fuel rest2).map (fun br => (ec :: br.1, br.2))
      | Option.none => Option.none
    else
      (parseStrBody fuel rest).map (fun br => (c :: br.1, br.2))

/-- Numeric value of a digit run. -/
def digitsToNat (ds : List Char) : Nat :=
  ds.foldl (fun a c => 10 * a + (c.toNat - 48)) 0

/-- Parse the exponent part of a JSON number (input starts after the
`e`/`E` marker). -/
def parseExp (cs : List Char) : Option (Int × List Char) :=
  let sgn := match cs with
    | '-' :: t => (true, t)
    | '+' :: t => (false, t)
    | _ => (false, cs)
  let es := sgn.2.takeWhile Char.isDigit
  if es.isEmpty then Option.none
  else
    some ((if sgn.1 then -(digitsToNat es : Int) else (digitsToNat es : Int)),
      sgn.2.drop es.length)

/-- Exact rational value of a decimal float literal. -/
def ratOfParts (neg : Bool) (ip : Nat) (fs : List Char) (ex : Int) : ℚ :=
  let mant : ℚ := (ip : ℚ) + (digitsToNat fs : ℚ) / (10 : ℚ) ^ fs.length
  let scaled := mant * (10 : ℚ) ^ ex
  if neg then -scaled else scaled

/-- Parse a JSON number.  Integer literals become Python ints, literals
with a fraction or exponent become floats (modelled exactly). -/
def parseNumber (cs : List Char) : Option (PyVal × List Char) :=
  let sgn := match cs with
    | '-' :: t => (true, t)
    | _ => (false, cs)
  let neg := sgn.1
  let ds := sgn.2.takeWhile Char.isDigit
  let cs2 := sgn.2.drop ds.length
  if ds.isEmpty then Option.none
  else if 1 < ds.length ∧ ds.headD '0' = '0' then Option.none
  else
    let ip := digitsToNat ds
    match cs2 with
    | '.' :: t =>
      let fs := t.takeWhile Char.isDigit
      let cs3 := t.drop fs.length
      if fs.isEmpty then Option.none
      else
        match cs3 with
        | 'e' :: t2 =>
          (parseExp t2).map (fun er => (PyVal.num (ratOfParts neg ip fs er.1), er.2))
        | 'E' :: t2 =>
          (parseExp t2).map (fun er => (PyVal.num (ratOfParts neg ip fs er.1), er.2))
        | _ => some (PyVal.num (ratOfParts neg ip fs 0), cs3)
    | 'e' :: t2 =>
      (parseExp t2).map (fun er => (PyVal.num (ratOfParts neg ip [] er.1), er.2))
    | 'E' :: t2 =>
      (parseExp t2).map (fun er => (PyVal.num (ratOfParts neg ip [] er.1), er.2))
    | _ => some (PyVal.int (if neg then -(ip : Int) else (ip : Int)), cs2)

/-- Consume a literal keyword, returning the rest of the input. -/
def litRest (lit : String) (cs : List Char) : Option (List Char) :=
  if lit.data.isPrefixOf cs then some (cs.drop lit.data.length) else Option.none

mutual

/-- Parse one JSON value. -/
def parseVal : Nat → List Char → Option (PyVal × List Char)
  | 0, _ => Option.none
  | fuel + 1, cs =>
    match cs with
    | [] => Option.none
    | c :: rest =>
      if c = '"' then
        match parseStrBody (fuel + 1) rest with
        | some (body, r) => some (PyVal.str ⟨body⟩, r)
        | Option.none => Option.none
      else if c = '[' then
        match skipJWs rest with
        | ']' :: r2 => some (PyVal.list [], r2)
        | cs2 => parseArrItems fuel cs2 []
      else if c = '\x7b' then
        match skipJWs rest with
        | '\x7d' :: r2 => some (PyVal.dict [], r2)
        | cs2 => parseObjItems fuel cs2 []
      else
        match litRest "null" cs with
        | some r => some (PyVal.none, r)
        | Option.none =>
        match litRest "true" cs with
        | some r => some (PyVal.bool true, r)
        | Option.none =>
        match litRest "false" cs with
        | some r => some (PyVal.bool false, r)
        | Option.none =>
        match litRest "NaN" cs with
        | some r => some (PyVal.nan, r)
        | Option.none =>
        match litRest "Infinity" cs with
        | some r => some (PyVal.inf false, r)
        | Option.none =>
        match litRest "-Infinity" cs with
        | some r => some (PyVal.inf true, r)
        | Option.none => parseNumber cs

/-- Parse the items of a non-empty JSON array (after the opening bracket
and leading whitespace). -/
def parseArrItems : Nat → List Char → List PyVal → Option (PyVal × List Char)
  | 0, _, _ => Option.none
  | fuel + 1, cs, acc =>
    match parseVal fuel cs with
    | some (v, r1) =>
      match skipJWs r1 with
      | ',' :: r2 => parseArrItems fuel (skipJWs r2) (acc ++ [v])
      | ']' :: r2 => some (PyVal.list (acc ++ [v]), r2)
      | _ => Option.none
    | Option.none => Option.none

/-- Parse the members of a non-empty JSON object (after the opening brace
and leading whitespace). -/
def parseObjItems : Nat → List Char → List (String × PyVal) →
    Option (PyVal × List Char)
  | 0, _, _ => Option.none
  | fuel + 1, cs, acc =>
    match cs with
    | '"' :: rest =>
      match parseStrBody fuel rest with
      | some (key, r1) =>
        match skipJWs r1 with
        | ':' :: r2 =>
          match parseVal fuel (skipJWs r2) with
          | some (v, r3) =>
            match skipJWs r3 with
            | ',' :: r4 => parseObjItems fuel (skipJWs r4) (acc ++ [(⟨key⟩, v)])
            | '\x7d' :: r4 => some (PyVal.dict (acc ++ [(⟨key⟩, v)]), r4)
            | _ => Option.none
          | Option.none => Option.none
        | _ => Option.none
      | Option.none => Option.none
    | _ => Option.none

end

/-- Python `json.loads`: parse the whole document, requiring only
whitespace after the value. -/
def jsonLoads (s : String) : Option PyVal :=
  match parseVal (4 * s.length + 8) (skipJWs s.data) with
  | some (v, rest) => if (skipJWs rest).isEmpty then some v else Option.none
  | Option.none => Option.none

/-- JSON string-escape a character (the encoder side). -/
def jEscapeChar (c : Char) : List Char :=
  if c = '"' then ['\\', '"']
  else if c = '\\' then ['\\', '\\']
  else if c = '\n' then ['\\', 'n']
  else if c = '\t' then ['\\', 't']
  else if c = '\r' then ['\\', 'r']
  else [c]

mutual

/-- Python `json.dumps` with default separators.  (Attempting to dump raw
bytes raises in Python; the bytes case below is total but unreachable in
the modelled flows, which only dump JSON-shaped values.) -/
def jsonDumps : PyVal → String
  | .none => "null"
  | .bool b => if b then "true" else "false"
  | .int n => toString n
  | .num q => toString q
  | .str s => "\"" ++ ⟨(s.data.map jEscapeChar).flatten⟩ ++ "\""
  | .list xs => "[" ++ String.intercalate ", " (jsonDumpsList xs) ++ "]"
  | .dict kvs => "\x7b" ++ String.intercalate ", " (jsonDumpsPairs kvs) ++ "\x7d"
  | .bytes _ => "null"
  | .inf neg => if neg then "-Infinity" else "Infinity"
  | .nan => "NaN"

/-- Helper for `jsonDumps` on array elements. -/
def jsonDumpsList : List PyVal → List String
  | [] => []
  | x :: xs => jsonDumps x :: jsonDumpsList xs

/-- Helper for `jsonDumps` on object members. -/
def jsonDumpsPairs : List (String × PyVal) → List String
  | [] => []
  | (k, v) :: kvs =>
    ("\"" ++ ⟨(k.data.map jEscapeChar).flatten⟩ ++ "\": " ++ jsonDumps v) ::
      jsonDumpsPairs kvs

end

/-! ## Session memory (`memory/memory_manager.py`)

The Redis client is modelled as an explicit state value: string-keyed
hashes of string fields, plus string sets and per-key TTLs.  `uuid.uuid4`
is an external randomness source, so `create_session` takes the drawn
identifier as an explicit argument; freshness of the draw becomes a
hypothesis where a claim needs it. -/

/-- State of the Redis store used by `MemoryManager`. -/
structure RedisState where
  hashes : List (String × List (String × String))
  sets : List (String × List String)
  ttls : List (String × Nat)

/-- The empty store. -/
def emptyRedis : RedisState := ⟨[], [], []⟩

/-- All fields of a hash (`HGETALL`), empty when the key is absent. -/
def hgetall (st : RedisState) (key : String) : List (String × String) :=
  (alookup st.hashes key).getD []

/-- Key existence check (`EXISTS`); a hash key exists iff it has fields. -/
def hexists (st : RedisState) (key : String) : Bool :=
  (alookup st.hashes key).isSome

/-- Write a mapping of fields into a hash (`HSET` with `mapping=`),
creating the hash when absent and overwriting the named fields. -/
def hsetAll (st : RedisState) (key : String) (kvs : List (String × String)) :
    RedisState :=
  { st with hashes := aset st.hashes key (asetAll (hgetall st key) kvs) }

/-- Members of a set key (`SMEMBERS`). -/
def smembers (st : RedisState) (key : String) : List String :=
  (alookup st.sets key).getD []

/-- Add a member to a set key (`SADD`). -/
def sadd (st : RedisState) (key member : String) : RedisState :=
  let cur := smembers st key
  { st with sets := aset st.sets key (if member ∈ cur then cur else cur ++ [member]) }

/-- Assign a time-to-live to a key (`EXPIRE`). -/
def expireKey (st : RedisState) (key : String) (secs : Nat) : RedisState :=
  { st with ttls := aset st.ttls key secs }

/-- Redis key for a session (`f"session:{session_id}"` with the
manager's fixed key namespace). -/
def sessionKey (sid : String) : String := "session:" ++ sid

/-- Name of the active-sessions index set. -/
def activeSessionsKey : String := "active_sessions"

/-- Per-field serialisation used by `create_session`/`update_session`:
`json.dumps(v) if isinstance(v, (dict, list)) else str(v)`. -/
def dumpField : PyVal → String
  | .list xs => jsonDumps (.list xs)
  | .dict kvs => jsonDumps (.dict kvs)
  | v => pyStr v

/-- Per-field deserialisation used by `get_session`: try `json.loads`,
keep the raw string when parsing fails. -/
def parseField (v : String) : PyVal := (jsonLoads v).getD (.str v)

/-- `MemoryManager.create_session`.  `sid` is the identifier drawn from
`uuid.uuid4()` and `ts` the `timestamp.isoformat()` string; the function
returns the identifier and the updated store. -/
def createSession (st : RedisState) (sid source inputType intent ts : String) :
    String × RedisState :=
  let sessionData : List (String × PyVal) :=
    [("session_id", .str sid),
     ("source", .str source),
     ("input_type", .str inputType),
     ("intent", .str intent),
     ("created_at", .str ts),
     ("updated_at", .str ts),
     ("status", .str "active"),
     ("processing_history", .list []),
     ("extracted_data", .dict []),
     ("metadata", .dict [])]
  let st1 := hsetAll st (sessionKey sid)
    (sessionData.map (fun kv => (kv.1, dumpField kv.2)))
  let st2 := sadd st1 activeSessionsKey sid
  let st3 := expireKey st2 (sessionKey sid) 86400
  (sid, st3)

/-- `MemoryManager.get_session`: absent key gives `None`; otherwise every
stored field is re-parsed with `json.loads`, falling back to the raw
string. -/
def getSession (st : RedisState) (sid : String) :
    Option (List (String × PyVal)) :=
  if hexists st (sessionKey sid) then
    some ((hgetall st (sessionKey sid)).map (fun kv => (kv.1, parseField kv.2)))
  else Option.none

/-- `MemoryManager.update_session`: absent key gives `False`; otherwise
stamp `updated_at := now` into the updates and `HSET` the serialised
fields. -/
def updateSession (st : RedisState) (sid : String)
    (updates : List (String × PyVal)) (now : String) : Bool × RedisState :=
  if hexists st (sessionKey sid) then
    let updates2 := aset updates "updated_at" (.str now)
    (true, hsetAll st (sessionKey sid)
      (updates2.map (fun kv => (kv.1, dumpField kv.2))))
  else (false, st)

/-- `MemoryManager.add_processing_step`: read the session, append a step
record to its parsed `processing_history`, write the new history back.
`.append` on a non-list parsed value raises, modelled as `Except.error`
with the store unchanged (the crash happens before any write). -/
def addProcessingStep (st : RedisState) (sid agentName : String)
    (result : PyVal) (ts now : String) : Except String Bool × RedisState :=
  match getSession st sid with
  | Option.none => (.ok false, st)
  | some sess =>
    match alookup sess "processing_history" with
    | some (.list hist) =>
      let step : PyVal := .dict
        [("agent", .str agentName), ("timestamp", .str ts), ("result", result)]
      let upd := updateSession st sid
        [("processing_history", .list (hist ++ [step]))] now
      (.ok upd.1, upd.2)
    | _ => (.error "AttributeError: append on non-list processing_history", st)

/-- `MemoryManager.store_extracted_data`: read the session, merge one key
into its parsed `extracted_data` map, write the map back.  Item
assignment on a non-dict parsed value raises, modelled as `Except.error`
with the store unchanged. -/
def storeExtractedData (st : RedisState) (sid dataKey : String)
    (dataValue : PyVal) (now : String) : Except String Bool × RedisState :=
  match getSession st sid with
  | Option.none => (.ok false, st)
  | some sess =>
    match alookup sess "extracted_data" with
    | some (.dict ed) =>
      let upd := updateSession st sid
        [("extracted_data", .dict (aset ed dataKey dataValue))] now
      (.ok upd.1, upd.2)
    | _ => (.error "TypeError: item assignment on non-dict extracted_data", st)

/-! ## Classifier (`agents/classifier_agent.py`) -/

/-- The classifier's fixed MIME-type table. -/
def formatPatterns : List (String × String) :=
  [("application/pdf", "pdf"),
   ("application/json", "json"),
   ("text/json", "json"),
   ("message/rfc822", "email"),
   ("text/plain", "text"),
   ("text/html", "html")]

/-- Step 1 of `_determine_format`: `if file_type and file_type in
self.format_patterns` (a falsy hint — `None` or the empty string — is
skipped). -/
def ftMatch (fileType : Option String) : Option String :=
  match fileType with
  | some t => if t = "" then Option.none else alookup formatPatterns t
  | Option.none => Option.none

/-- Split a character list on a separator character, Python
`str.split(sep)` style (`"a..b".split('.') == ["a", "", "b"]`). -/
def splitOnChar (c : Char) : List Char → List (List Char)
  | [] => [[]]
  | x :: xs =>
    if x = c then [] :: splitOnChar c xs
    else
      match splitOnChar c xs with
      | [] => [[x]]
      | g :: gs => (x :: g) :: gs

/-- Extension of a filename: `filename.lower().split('.')[-1]`. -/
def fnExt (fn : String) : String :=
  ⟨((splitOnChar '.' (pyLower fn).data).getLast?).getD []⟩

/-- Step 2 of `_determine_format`: the extension table, skipped for a
falsy filename; an unmatched extension falls through to content
sniffing. -/
def fnMatch (filename : Option String) : Option String :=
  match filename with
  | some f =>
    if f = "" then Option.none
    else
      let ext := fnExt f
      if ext = "pdf" then some "pdf"
      else if ext = "json" ∨ ext = "jsonl" then some "json"
      else if ext = "eml" ∨ ext = "msg" then some "email"
      else if ext = "txt" ∨ ext = "text" then some "text"
      else if ext = "html" ∨ ext = "htm" then some "html"
      else Option.none
  | Option.none => Option.none

/-- `ClassifierAgent._is_json_string`. -/
def isJsonString : PyVal → Bool
  | .str s => (jsonLoads s).isSome
  | _ => false

/-- `ClassifierAgent._looks_like_email`. -/
def looksLikeEmail (s : String) : Bool :=
  ["from:", "to:", "subject:", "date:", "@"].any
    (fun ind => pyIn ind (pyLower s))

/-- Whether a value is a Python dict. -/
def isDictVal : PyVal → Bool
  | .dict _ => true
  | _ => false

/-- `ClassifierAgent._determine_format`. -/
def determineFormat (content : PyVal) (fileType filename : Option String) :
    String :=
  match ftMatch fileType with
  | some f => f
  | Option.none =>
    match fnMatch filename with
    | some f => f
    | Option.none =>
      if isDictVal content || isJsonString content then "json"
      else
        match content with
        | .str s =>
          if pyStarts "%PDF" (pyStrip s) then "pdf"
          else if looksLikeEmail s then "email"
          else if pyStarts "<html" (pyStrip s) then "html"
          else "text"
        | _ => "unknown"

/-- `ClassifierAgent._determine_intent`: ordered keyword triggers over the
lower-cased `str(content)`, then format-based fallbacks. -/
def determineIntent (content : PyVal) (formatType : String) : String :=
  let cs := pyLower (pyStr content)
  if ["invoice", "bill", "payment", "charge"].any (fun w => pyIn w cs) then
    "invoice_processing"
  else if ["resume", "cv", "experience", "education"].any (fun w => pyIn w cs) then
    "resume_parsing"
  else if ["order", "purchase", "buy", "cart"].any (fun w => pyIn w cs) then
    "order_processing"
  else if ["support", "help", "issue", "problem"].any (fun w => pyIn w cs) then
    "support_ticket"
  else if ["application", "apply", "form"].any (fun w => pyIn w cs) then
    "form_processing"
  else if formatType = "email" then "email_processing"
  else if formatType = "pdf" then "document_processing"
  else "general_processing"

/-- Floor of the base-2 logarithm of a positive natural (fuel-based for
kernel reducibility). -/
def natLog2Fuel : Nat → Nat → Nat
  | 0, _ => 0
  | fuel + 1, n => if n < 2 then 0 else natLog2Fuel fuel (n / 2) + 1

/-- Floor of the base-2 logarithm of a positive natural. -/
def natLog2 (n : Nat) : Nat := natLog2Fuel n n

/-- Round `num / den` to the nearest integer, ties to even. -/
def roundTE (num den : Nat) : Nat :=
  let q := num / den
  let r := num % den
  if 2 * r < den then q
  else if den < 2 * r then q + 1
  else if q % 2 = 0 then q
  else q + 1

/-- Exact value of a nonnegative IEEE-754 binary64 double, represented
dyadically as `num / 2^exp`. -/
structure Dyad where
  num : Nat
  exp : Nat
deriving DecidableEq

/-- Rational value of a dyadic. -/
def Dyad.toQ (d : Dyad) : ℚ := (d.num : ℚ) / 2 ^ d.exp

/-- Round the positive rational `a / b` to the nearest binary64 double
(round to nearest, ties to even): the semantics of a Python decimal float
literal with value `a / b`.  Models the normal, non-overflowing range,
which covers every value the confidence computation produces. -/
def fp64OfRat (a b : Nat) : Dyad :=
  if a = 0 ∨ b = 0 then ⟨0, 0⟩
  else
    let e : Int :=
      if b ≤ a then (natLog2 (a / b) : Int)
      else if b = a * 2 ^ natLog2 (b / a) then -(natLog2 (b / a) : Int)
      else -(natLog2 (b / a) : Int) - 1
    let s : Int := 52 - e
    if 0 ≤ s then ⟨roundTE (a * 2 ^ s.toNat) b, s.toNat⟩
    else ⟨roundTE a (b * 2 ^ (-s).toNat) * 2 ^ (-s).toNat, 0⟩

/-- IEEE binary64 addition of two nonnegative doubles: the exact dyadic
sum, rounded back to 53 significant bits. -/
def fpAdd (x y : Dyad) : Dyad :=
  let e := max x.exp y.exp
  fp64OfRat (x.num * 2 ^ (e - x.exp) + y.num * 2 ^ (e - y.exp)) (2 ^ e)

/-- `ClassifierAgent._calculate_confidence`, with Python's binary64 float
arithmetic modelled exactly: the decimal literals `0.7`, `0.2`, `0.1`
denote their double values and each `+=` rounds to 53 bits, so the sum
`0.7 + 0.2 + 0.1` is `0.9999999999999999`, not `1.0`; the final
`min(_, 1.0)` is exact. -/
def calcConfidence (formatType intent : String) : ℚ :=
  let base := fp64OfRat 7 10
  let b1 := if formatType = "pdf" ∨ formatType = "json" ∨ formatType = "email"
    then fpAdd base (fp64OfRat 2 10) else base
  let b2 := if intent ≠ "general_processing" then fpAdd b1 (fp64OfRat 1 10)
    else b1
  min b2.toQ 1

/-- Result record of `ClassifierAgent.classify`. -/
structure ClassificationResult where
  format : String
  intent : String
  confidence : ℚ
  metaFileType : Option String
  metaFilename : Option String
  metaContentLength : Nat

/-- `ClassifierAgent.classify`. -/
def classify (content : PyVal) (fileType filename : Option String)
    (_metadata : Option PyVal) : ClassificationResult :=
  let f := determineFormat content fileType filename
  let i := determineIntent content f
  { format := f
    intent := i
    confidence := calcConfidence f i
    metaFileType := fileType
    metaFilename := filename
    metaContentLength := if pyTruthy content then (pyStr content).length else 0 }

/-! ## MD5 (`hashlib.md5`) and conversation identifiers
(`agents/email_parser_agent.py`)

`_generate_conversation_id` fingerprints `f"{email}_{subject}"` with
`hashlib.md5(...).hexdigest()[:12]`.  MD5 is implemented here in full over
`Nat` arithmetic mod `2^32` so the fingerprint is a real computable
function of the input bytes. -/

/-- Reduce modulo `2^32`. -/
def m32 (x : Nat) : Nat := x % 4294967296

/-- Rotate a 32-bit word left by `s` bits (valid for `x < 2^32`,
`0 < s < 32`). -/
def rotl32 (s x : Nat) : Nat := m32 (x * 2 ^ s) + x / 2 ^ (32 - s)

/-- Bitwise complement of a 32-bit word. -/
def not32 (x : Nat) : Nat := 4294967295 - x

/-- The 64 MD5 sine-derived constants `K[i] = floor(abs(sin(i+1)) * 2^32)`. -/
def md5K : List Nat :=
  [3614090360, 3905402710, 606105819, 3250441966, 4118548399, 1200080426,
   2821735955, 4249261313, 1770035416, 2336552879, 4294925233, 2304563134,
   1804603682, 4254626195, 2792965006, 1236535329, 4129170786, 3225465664,
   643717713, 3921069994, 3593408605, 38016083, 3634488961, 3889429448,
   568446438, 3275163606, 4107603335, 1163531501, 2850285829, 4243563512,
   1735328473, 2368359562, 4294588738, 2272392833, 1839030562, 4259657740,
   2763975236, 1272893353, 4139469664, 3200236656, 681279174, 3936430074,
   3572445317, 76029189, 3654602809, 3873151461, 530742520, 3299628645,
   4096336452, 1126891415, 2878612391, 4237533241, 1700485571, 2399980690,
   4293915773, 2240044497, 1873313359, 4264355552, 2734768916, 1309151649,
   4149444226, 3174756917, 718787259, 3951481745]

/-- The per-round left-rotation amounts. -/
def md5S : List Nat :=
  [7, 12, 17, 22, 7, 12, 17, 22, 7, 12, 17, 22, 7, 12, 17, 22,
   5, 9, 14, 20, 5, 9, 14, 20, 5, 9, 14, 20, 5, 9, 14, 20,
   4, 11, 16, 23, 4, 11, 16, 23, 4, 11, 16, 23, 4, 11, 16, 23,
   6, 10, 15, 21, 6, 10, 15, 21, 6, 10, 15, 21, 6, 10, 15, 21]

/-- One MD5 operation (step `i` of a 64-step block round). -/
def md5Step (M : Nat → Nat) (st : Nat × Nat × Nat × Nat) (i : Nat) :
    Nat × Nat × Nat × Nat :=
  let a := st.1
  let b := st.2.1
  let c := st.2.2.1
  let d := st.2.2.2
  let fg : Nat × Nat :=
    if i < 16 then ((b &&& c) ||| (not32 b &&& d), i)
    else if i < 32 then ((d &&& b) ||| (not32 d &&& c), (5 * i + 1) % 16)
    else if i < 48 then (b ^^^ c ^^^ d, (3 * i + 5) % 16)
    else (c ^^^ (b ||| not32 d), (7 * i) % 16)
  let tmp := m32 (a + fg.1 + (md5K.getD i 0) + M fg.2)
  (d, m32 (b + rotl32 (md5S.getD i 7) tmp), b, c)

/-- Process one 64-byte block (given as bytes) into the running state. -/
def md5Block (st : Nat × Nat × Nat × Nat) (block : List Nat) :
    Nat × Nat × Nat × Nat :=
  let M : Nat → Nat := fun j =>
    block.getD (4 * j) 0 + 256 * block.getD (4 * j + 1) 0 +
      65536 * block.getD (4 * j + 2) 0 + 16777216 * block.getD (4 * j + 3) 0
  let r := (List.range 64).foldl (md5Step M) st
  (m32 (st.1 + r.1), m32 (st.2.1 + r.2.1), m32 (st.2.2.1 + r.2.2.1),
    m32 (st.2.2.2 + r.2.2.2))

/-- Little-endian 8-byte encoding of a 64-bit length value. -/
def le64 (n : Nat) : List Nat :=
  [n % 256, n / 256 % 256, n / 65536 % 256, n / 16777216 % 256,
   n / 4294967296 % 256, n / 1099511627776 % 256,
   n / 281474976710656 % 256, n / 72057594037927936 % 256]

/-- MD5 padding: `0x80`, zeros to 56 mod 64, then the bit length. -/
def md5Pad (msg : List Nat) : List Nat :=
  let padLen := (120 - (msg.length + 1) % 64) % 64
  msg ++ 128 :: List.replicate padLen 0 ++ le64 (8 * msg.length % 18446744073709551616)

/-- Split a byte list into 64-byte chunks (structural recursion with a
fuel bound of one step per element, always sufficient since every step
consumes at least one element). -/
def chunks64Fuel : Nat → List Nat → List (List Nat)
  | 0, _ => []
  | _ + 1, [] => []
  | fuel + 1, x :: xs => (x :: xs).take 64 :: chunks64Fuel fuel ((x :: xs).drop 64)

/-- Split a byte list into 64-byte chunks. -/
def chunks64 (l : List Nat) : List (List Nat) := chunks64Fuel l.length l

/-- Little-endian 4-byte decomposition of a 32-bit word. -/
def leBytes4 (x : Nat) : List Nat :=
  [x % 256, x / 256 % 256, x / 65536 % 256, x / 16777216 % 256]

/-- MD5 digest (16 bytes) of a byte message. -/
def md5Digest (msg : List Nat) : List Nat :=
  let fin := (chunks64 (md5Pad msg)).foldl md5Block
    (1732584193, 4023233417, 2562383102, 271733878)
  leBytes4 fin.1 ++ leBytes4 fin.2.1 ++ leBytes4 fin.2.2.1 ++ leBytes4 fin.2.2.2

/-- Two lower-case hex digits of a byte. -/
def byteHex (b : Nat) : List Char := [hexDigitChar (b / 16), hexDigitChar (b % 16)]

/-- Characters of `hashlib.md5(msg).hexdigest()`. -/
def md5HexChars (msg : List Nat) : List Char := (md5Digest msg).map byteHex |>.flatten

/-- UTF-8 encoding of one character (Python `str.encode()`.) -/
def charUtf8 (c : Char) : List Nat :=
  let n := c.toNat
  if n < 128 then [n]
  else if n < 2048 then [192 + n / 64, 128 + n % 64]
  else if n < 65536 then [224 + n / 4096, 128 + n / 64 % 64, 128 + n % 64]
  else [240 + n / 262144, 128 + n / 4096 % 64, 128 + n / 64 % 64, 128 + n % 64]

/-- UTF-8 bytes of a string (Python `str.encode()`). -/
def utf8Bytes (s : String) : List Nat := (s.data.map charUtf8).flatten

/-- Python `subject or 'no_subject'` for an optional subject. -/
def subjectOrDefault (subject : Option String) : String :=
  match subject with
  | some s => if s = "" then "no_subject" else s
  | Option.none => "no_subject"

/-- The fingerprint `hashlib.md5(base.encode()).hexdigest()[:12]` of the
base string `f"{email}_{subject}"`. -/
def convFingerprintOf (email subj : String) : String :=
  ⟨(md5HexChars (utf8Bytes (email ++ "_" ++ subj))).take 12⟩

/-- `EmailParserAgent._generate_conversation_id`: fingerprint of
`f"{sender_info.get('email', 'unknown')}_{subject or 'no_subject'}"`,
prefixed with `conv_`. -/
def genConversationId (senderInfo : List (String × PyVal))
    (subject : Option String) : String :=
  let base := pyStr ((alookup senderInfo "email").getD (.str "unknown")) ++
    "_" ++ subjectOrDefault subject
  "conv_" ++ ⟨(md5HexChars (utf8Bytes base)).take 12⟩

/-! ## Extraction strategies (`agents/email_parser_agent.py`,
`agents/pdf_agent.py`, `agents/json_agent.py`) and the router
(`main.py::route_to_agent`)

The strategies' calls into external boundaries — the PyPDF2 reader, the
text-generation client, regex analyses of their outputs — are taken as
universally quantified parameters describing the boundary outcome for the
processed input; the record each strategy assembles and every session
write are modelled from the source. -/

/-- The fixed fallback analysis of
`EmailParserAgent._analyze_email_content`. -/
def defaultEmailAnalysis : PyVal := .dict
  [("intent", .str "General Inquiry"),
   ("urgency", .str "Medium"),
   ("topics", .list [.str "general"]),
   ("required_action", .str "Review and respond"),
   ("sentiment", .str "Neutral"),
   ("confidence", .str "Low")]

/-- `EmailParserAgent._analyze_email_content`: call the text-generation
client, then `eval` the raw response; any exception from either step
falls back to the fixed default.  `genResp` is the outcome of
`llm_client.generate(prompt)` and `pyEvalFn` the behaviour of Python's
`eval` builtin on response strings. -/
def analyzeEmailContent (genResp : Except String String)
    (pyEvalFn : String → Except String PyVal) : PyVal :=
  match genResp with
  | .error _ => defaultEmailAnalysis
  | .ok resp =>
    match pyEvalFn resp with
    | .ok v => v
    | .error _ => defaultEmailAnalysis

/-- A concrete instance of the `eval` boundary: Python's
`eval("2 + 2")` evaluates the arithmetic expression to the int `4`
(it is not JSON and conforms to no analysis shape). -/
def pyEvalDemo : String → Except String PyVal := fun s =>
  if s = "2 + 2" then .ok (.int 4) else .error "SyntaxError"

/-- `EmailParserAgent.process`: assemble the strategy result and write it
into the session with `update_session`.  The structural parse, sender
extraction and content analysis delegate to library/regex/LLM boundaries,
so their outcomes (`senderInfo`, `analysis`, `crmRecord`, `parsedEmail`)
are parameters; the record's shape, the conversation id and the session
write are modelled from the source. -/
def emailAgentProcess (st : RedisState) (sid : String)
    (senderInfo : List (String × PyVal)) (subject : Option String)
    (analysis crmRecord parsedEmail : PyVal) (processedAt now : String) :
    List (String × PyVal) × RedisState :=
  let result : List (String × PyVal) :=
    [("agent", .str "email_parser_agent"),
     ("conversation_id", .str (genConversationId senderInfo subject)),
     ("sender_info", .dict senderInfo),
     ("analysis", analysis),
     ("crm_record", crmRecord),
     ("parsed_email", parsedEmail),
     ("processed_at", .str processedAt)]
  let upd := updateSession st sid result now
  (result, upd.2)

/-- Per-page placeholder marker emitted by
`PDFAgent._extract_text_from_pdf` when a page's extraction fails. -/
def pageMarker (n : Nat) : String :=
  "--- Page " ++ toString n ++ " (Error extracting text) ---"

/-- One page's contribution to the accumulated text. -/
def pageChunk (p : Nat × Except String String) : String :=
  match p.2 with
  | .ok t => "\n--- Page " ++ toString (p.1 + 1) ++ " ---\n" ++ t
  | .error _ => "\n" ++ pageMarker (p.1 + 1) ++ "\n"

/-- `PDFAgent._extract_text_from_pdf`.  `reader` is the outcome of the
PyPDF2 boundary on the given bytes: either a whole-document failure
(caught by the outer `except`) or a per-page list of extraction
outcomes (each page's failure caught by the inner `except`). -/
def pdfExtractText (reader : Except String (List (Except String String))) :
    String :=
  match reader with
  | .error e => "Error extracting PDF text: " ++ e
  | .ok pages => ⟨pyStripList ((pages.enum.map (fun p => (pageChunk p).data)).flatten)⟩

/-- `PDFAgent.process`: extract text, assemble the strategy result and
write it into the session.  The document analysis, key-information
extraction and document-type classification delegate to regex/LLM
boundaries with their own internal fallbacks, so their outcomes are
parameters. -/
def pdfAgentProcess (st : RedisState) (sid : String)
    (reader : Except String (List (Except String String)))
    (docClassification docAnalysis extractedData : PyVal)
    (processedAt now : String) : List (String × PyVal) × RedisState :=
  let extractedText := pdfExtractText reader
  let shownText :=
    if 1000 < extractedText.length then ⟨extractedText.data.take 1000⟩ ++ "..."
    else extractedText
  let result : List (String × PyVal) :=
    [("agent", .str "pdf_agent"),
     ("document_classification", docClassification),
     ("extracted_text", .str shownText),
     ("document_analysis", docAnalysis),
     ("extracted_data", extractedData),
     ("processed_at", .str processedAt)]
  let upd := updateSession st sid result now
  (result, upd.2)

/-- Top-level keys of a dict value, as `list(data.keys())`. -/
def dictKeysOf : PyVal → List PyVal
  | .dict kvs => kvs.map (fun kv => PyVal.str kv.1)
  | _ => []

/-- `len(data)` for a dict, `0` otherwise (as in `JSONAgent.process`). -/
def dictLenOf : PyVal → Nat
  | .dict kvs => kvs.length
  | _ => 0

/-- The success record assembled by `JSONAgent.process`. -/
def jsonOkResult (data : PyVal) : List (String × PyVal) :=
  [("status", .str "success"),
   ("data_type", .str "json"),
   ("keys_found", .list (dictKeysOf data)),
   ("total_fields", .int (dictLenOf data)),
   ("processed_data", data)]

/-- The error record assembled in `JSONAgent.process`'s `except` branch. -/
def jsonErrResult (e : String) : List (String × PyVal) :=
  [("status", .str "error"),
   ("error", .str e),
   ("data_type", .str "json")]

/-- The `except` branch of `JSONAgent.process`: record the error result
through a second `add_processing_step` (whose own exception, if any,
propagates). -/
def jsonAgentExcept (st : RedisState) (sid e ts3 now3 : String) :
    Except String (List (String × PyVal)) × RedisState :=
  match addProcessingStep st sid "JSONAgent" (.dict (jsonErrResult e)) ts3 now3 with
  | (.error e2, st2) => (.error e2, st2)
  | (.ok _, st2) => (.ok (jsonErrResult e), st2)

/-- `JSONAgent.process` (`agents/json_agent.py`): build the success
record, append it to the processing history and merge the data into
`extracted_data`; an exception inside the `try` block is caught and
recorded through the `except` branch.  The result is the returned record
(or the propagated exception) plus the final store. -/
def jsonAgentProcess (st : RedisState) (sid : String) (data : PyVal)
    (ts1 now1 now2 ts3 now3 : String) :
    Except String (List (String × PyVal)) × RedisState :=
  match addProcessingStep st sid "JSONAgent" (.dict (jsonOkResult data)) ts1 now1 with
  | (.error e, st1) => jsonAgentExcept st1 sid e ts3 now3
  | (.ok _, st1) =>
    match storeExtractedData st1 sid "json_data" data now2 with
    | (.error e, st2) => jsonAgentExcept st2 sid e ts3 now3
    | (.ok _, st2) => (.ok (jsonOkResult data), st2)

/-- Boundary outcomes consumed by one `route_to_agent` call: the PyPDF2
reader behaviour and the strategies' abstracted sub-results and
timestamps. -/
structure AgentOracles where
  pdfReader : Except String (List (Except String String))
  pdfDocClassification : PyVal
  pdfDocAnalysis : PyVal
  pdfExtractedData : PyVal
  pdfProcessedAt : String
  pdfNow : String
  emailSenderInfo : List (String × PyVal)
  emailAnalysis : PyVal
  emailCrmRecord : PyVal
  emailParsedEmail : PyVal
  emailProcessedAt : String
  emailNow : String
  jsonTs1 : String
  jsonNow1 : String
  jsonNow2 : String
  jsonTs3 : String
  jsonNow3 : String

/-- `main.py::route_to_agent`: pure dispatch on the lower-cased
classification format.  The json branch first adapts a string content by
`json.loads` (whose failure raises out of the router); any other format
raises `ValueError(f"Unsupported format: {format_type}")` before touching
the store. -/
def routeToAgent (formatVal : String) (content : PyVal) (st : RedisState)
    (sid : String) (o : AgentOracles) :
    Except String (List (String × PyVal)) × RedisState :=
  let formatType := pyLower formatVal
  if formatType = "pdf" then
    let r := pdfAgentProcess st sid o.pdfReader o.pdfDocClassification
      o.pdfDocAnalysis o.pdfExtractedData o.pdfProcessedAt o.pdfNow
    (.ok r.1, r.2)
  else if formatType = "json" then
    match content with
    | .str s =>
      match jsonLoads s with
      | some d => jsonAgentProcess st sid d o.jsonTs1 o.jsonNow1 o.jsonNow2
          o.jsonTs3 o.jsonNow3
      | Option.none => (.error "json.decoder.JSONDecodeError", st)
    | d => jsonAgentProcess st sid d o.jsonTs1 o.jsonNow1 o.jsonNow2
        o.jsonTs3 o.jsonNow3
  else if formatType = "email" then
    let r := emailAgentProcess st sid o.emailSenderInfo Option.none
      o.emailAnalysis o.emailCrmRecord o.emailParsedEmail o.emailProcessedAt
      o.emailNow
    (.ok r.1, r.2)
  else (.error ("Unsupported format: " ++ formatType), st)

/-- One strategy invocation on a session, with all boundary outcomes it
consumes (used to quantify over arbitrary invocation sequences). -/
inductive AgentOp where
  | jsonOp (data : PyVal) (ts1 now1 now2 ts3 now3 : String)
  | emailOp (senderInfo : List (String × PyVal)) (subject : Option String)
      (analysis crmRecord parsedEmail : PyVal) (processedAt now : String)
  | pdfOp (reader : Except String (List (Except String String)))
      (docClassification docAnalysis extractedData : PyVal)
      (processedAt now : String)

/-- Effect of one strategy invocation on the store. -/
def applyAgentOp (sid : String) (st : RedisState) : AgentOp → RedisState
  | .jsonOp data ts1 now1 now2 ts3 now3 =>
    (jsonAgentProcess st sid data ts1 now1 now2 ts3 now3).2
  | .emailOp si subj an crm pe pa now =>
    (emailAgentProcess st sid si subj an crm pe pa now).2
  | .pdfOp reader dc da ed pa now =>
    (pdfAgentProcess st sid reader dc da ed pa now).2

/-- Raw (serialised) value of one field of one stored hash. -/
def rawField (st : RedisState) (key f : String) : Option String :=
  alookup ((alookup st.hashes key).getD []) f

/-! ## Basic lemmas about the store primitives -/

theorem alookup_aset {α : Type} (m : List (String × α)) (k k2 : String) (v : α) :
    alookup (aset m k v) k2 = if k = k2 then some v else alookup m k2 := by
  induction m with
  | nil =>
    by_cases h : k = k2 <;> simp [aset, alookup, h]
  | cons kv rest ih =>
    obtain ⟨ke, ve⟩ := kv
    by_cases hk : ke = k
    · subst hk
      by_cases h2 : ke = k2 <;> simp [aset, alookup, h2]
    · by_cases h2 : ke = k2
      · subst h2
        have : ¬ k = ke := fun h => hk h.symm
        simp [aset, alookup, hk, this]
      · simp [aset, alookup, hk, h2, ih]

theorem alookup_append {α : Type} (a b : List (String × α)) (k : String) :
    alookup (a ++ b) k =
      match alookup a k with
      | some v => some v
      | Option.none => alookup b k := by
  induction a with
  | nil => simp [alookup]
  | cons kv rest ih =>
    obtain ⟨ke, ve⟩ := kv
    by_cases h : ke = k <;> simp [alookup, h, ih]

theorem alookup_asetAll {α : Type} (kvs : List (String × α)) :
    ∀ (m : List (String × α)) (k : String),
      alookup (asetAll m kvs) k =
        match alookup kvs.reverse k with
        | some v => some v
        | Option.none => alookup m k := by
  induction kvs with
  | nil => intro m k; simp [asetAll, alookup]
  | cons kv rest ih =>
    intro m k
    obtain ⟨k1, v1⟩ := kv
    have hstep : asetAll m ((k1, v1) :: rest) = asetAll (aset m k1 v1) rest := rfl
    rw [hstep, ih]
    have hrev : ((k1, v1) :: rest).reverse = rest.reverse ++ [(k1, v1)] := by simp
    rw [hrev, alookup_append]
    cases h : alookup rest.reverse k
    · by_cases h1 : k1 = k <;> simp [alookup, h1, alookup_aset]
    · simp

theorem alookup_map_val {α β : Type} (g : α → β) (l : List (String × α))
    (k : String) :
    alookup (l.map (fun kv => (kv.1, g kv.2))) k = (alookup l k).map g := by
  induction l with
  | nil => simp [alookup]
  | cons kv rest ih =>
    obtain ⟨ke, ve⟩ := kv
    by_cases h : ke = k <;> simp [alookup, h, ih]

/-! ## Claim theorems -/

/-- C8 (code bug): `_analyze_email_content` passes the raw model response
to `eval` and returns whatever comes back — for the response `"2 + 2"`
(not structured data at all) the analysis is the int `4`, not the fixed
default the spec requires for any non-conforming response. -/
theorem analyzeEmail_eval_bypasses_default :
    analyzeEmailContent (.ok "2 + 2") pyEvalDemo = PyVal.int 4 ∧
      PyVal.int 4 ≠ defaultEmailAnalysis :=
  ⟨rfl, fun h => PyVal.noConfusion h⟩

/-- Value of one field of a stored session as `get_session` returns it. -/
def sessionField (st : RedisState) (sid f : String) : Option PyVal :=
  (getSession st sid).bind (fun sess => alookup sess f)

theorem parseField_active : parseField "active" = PyVal.str "active" := rfl

theorem parseField_emptyList : parseField "[]" = PyVal.list [] := rfl

theorem parseField_emptyDict : parseField "\x7b\x7d" = PyVal.dict [] := rfl

theorem jsonDumps_nilList : jsonDumps (PyVal.list []) = "[]" := rfl

theorem jsonDumps_nilDict : jsonDumps (PyVal.dict []) = "\x7b\x7d" := rfl

/-- C2: `create_session` returns the freshly drawn identifier (unused by
hypothesis on the random draw), registers it as active, and a
`get_session` immediately afterwards returns a session whose `status` is
`"active"`, whose `processing_history` is empty and whose
`extracted_data` is empty. -/
theorem createSession_fresh (st : RedisState)
    (sid source inputType intentVal ts : String)
    (hfresh : hexists st (sessionKey sid) = false)
    (hact : sid ∉ smembers st activeSessionsKey) :
    (createSession st sid source inputType intentVal ts).1 = sid ∧
    sid ∈ smembers (createSession st sid source inputType intentVal ts).2
      activeSessionsKey ∧
    (getSession (createSession st sid source inputType intentVal ts).2
      sid).isSome = true ∧
    sessionField (createSession st sid source inputType intentVal ts).2
      sid "status" = some (.str "active") ∧
    sessionField (createSession st sid source inputType intentVal ts).2
      sid "processing_history" = some (.list []) ∧
    sessionField (createSession st sid source inputType intentVal ts).2
      sid "extracted_data" = some (.dict []) := by
  have halo : alookup st.hashes (sessionKey sid) = Option.none := by
    unfold hexists at hfresh
    cases h : alookup st.hashes (sessionKey sid) <;> simp [h] at hfresh ⊢
  refine ⟨rfl, ?_, ?_, ?_, ?_, ?_⟩
  · simp only [smembers] at hact
    simp [createSession, expireKey, sadd, hsetAll, smembers, alookup_aset, hact]
  · simp [createSession, expireKey, sadd, hsetAll, getSession, hexists,
      alookup_aset]
  all_goals
    simp [sessionField, createSession, expireKey, sadd, hsetAll, getSession,
      hexists, hgetall, alookup_aset, halo, alookup_map_val, asetAll,
      jsonDumps_nilList, jsonDumps_nilDict, parseField_active,
      parseField_emptyList, parseField_emptyDict, dumpField, pyStr, alookup]

theorem createSession_fresh_witness :
    hexists emptyRedis (sessionKey "4f9d") = false ∧
    "4f9d" ∉ smembers emptyRedis activeSessionsKey ∧
    sessionField (createSession emptyRedis "4f9d" "doc.pdf" "pdf"
      "document_processing" "2024-01-01T00:00:00").2 "4f9d" "status" =
      some (.str "active") :=
  ⟨rfl, by simp [smembers, emptyRedis, alookup],
    (createSession_fresh emptyRedis "4f9d" "doc.pdf" "pdf"
      "document_processing" "2024-01-01T00:00:00" rfl
      (by simp [smembers, emptyRedis, alookup])).2.2.2.1⟩

/-- A concrete, trivial instance of the strategy boundary outcomes. -/
def trivialOracles : AgentOracles :=
  ⟨.error "", .none, .none, .none, "", "", [], .none, .none, .none, "", "",
    "", "", "", "", ""⟩

/-- C4: `route_to_agent` is pure dispatch on the lower-cased format: any
format outside pdf/json/email raises the unsupported-format error with
the store untouched; pdf/email dispatch directly to their strategies and
json only adapts a string content by `json.loads` (a failing parse
raising) before delegating. -/
theorem routeToAgent_dispatch (formatVal : String) (content : PyVal)
    (st : RedisState) (sid : String) (o : AgentOracles) :
    (pyLower formatVal ∉ (["pdf", "json", "email"] : List String) →
      routeToAgent formatVal content st sid o =
        (.error ("Unsupported format: " ++ pyLower formatVal), st)) ∧
    (pyLower formatVal = "pdf" →
      routeToAgent formatVal content st sid o =
        (.ok (pdfAgentProcess st sid o.pdfReader o.pdfDocClassification
            o.pdfDocAnalysis o.pdfExtractedData o.pdfProcessedAt o.pdfNow).1,
          (pdfAgentProcess st sid o.pdfReader o.pdfDocClassification
            o.pdfDocAnalysis o.pdfExtractedData o.pdfProcessedAt o.pdfNow).2)) ∧
    (pyLower formatVal = "email" →
      routeToAgent formatVal content st sid o =
        (.ok (emailAgentProcess st sid o.emailSenderInfo Option.none
            o.emailAnalysis o.emailCrmRecord o.emailParsedEmail
            o.emailProcessedAt o.emailNow).1,
          (emailAgentProcess st sid o.emailSenderInfo Option.none
            o.emailAnalysis o.emailCrmRecord o.emailParsedEmail
            o.emailProcessedAt o.emailNow).2)) ∧
    (pyLower formatVal = "json" →
      routeToAgent formatVal content st sid o =
        match content with
        | .str s =>
          match jsonLoads s with
          | some d => jsonAgentProcess st sid d o.jsonTs1 o.jsonNow1
              o.jsonNow2 o.jsonTs3 o.jsonNow3
          | Option.none => (.error "json.decoder.JSONDecodeError", st)
        | d => jsonAgentProcess st sid d o.jsonTs1 o.jsonNow1 o.jsonNow2
            o.jsonTs3 o.jsonNow3) := by
  refine ⟨?_, ?_, ?_, ?_⟩ <;> intro h
  · simp only [List.mem_cons, List.not_mem_nil, or_false, not_or] at h
    obtain ⟨h1, h2, h3⟩ := h
    simp [routeToAgent, h1, h2, h3]
  · simp [routeToAgent, h]
  · simp [routeToAgent, h]
  · simp [routeToAgent, h]

theorem routeToAgent_dispatch_witness :
    pyLower "csv" ∉ (["pdf", "json", "email"] : List String) ∧
    routeToAgent "csv" (.str "a,b\n1,2") emptyRedis "sid-9" trivialOracles =
      (.error ("Unsupported format: " ++ pyLower "csv"), emptyRedis) :=
  ⟨by decide,
    (routeToAgent_dispatch "csv" (.str "a,b\n1,2") emptyRedis "sid-9"
      trivialOracles).1 (by decide)⟩

theorem md5Digest_length (msg : List Nat) : (md5Digest msg).length = 16 := by
  unfold md5Digest
  simp [leBytes4]

theorem md5HexChars_length (msg : List Nat) : (md5HexChars msg).length = 32 := by
  unfold md5HexChars
  rw [List.length_flatten]
  have h1 : (List.length ∘ byteHex) = fun (_ : Nat) => 2 :=
    funext fun b => rfl
  rw [List.map_map, h1, List.map_const', List.sum_replicate,
    md5Digest_length]
  decide

theorem convFingerprintOf_length (e s : String) :
    (convFingerprintOf e s).length = 12 := by
  show ((md5HexChars (utf8Bytes (e ++ "_" ++ s))).take 12).length = 12
  rw [List.length_take, md5HexChars_length]
  decide

set_option maxRecDepth 100000 in
/-- C6: conversation-id generation is a pure deterministic function of the
(senderEmail, subject) pair: the id is the fixed prefix `conv_` followed
by the fixed-length (12-character) md5 fingerprint of
`<email>_<subject>`, a missing sender-email key falling back to
`unknown` and a missing or empty subject to `no_subject`; the md5 model
reproduces `hashlib` exactly on a reference input. -/
theorem genConversationId_spec :
    (∀ (senderInfo : List (String × PyVal)) (subject : Option String),
      genConversationId senderInfo subject =
        "conv_" ++ convFingerprintOf
          (pyStr ((alookup senderInfo "email").getD (.str "unknown")))
          (subjectOrDefault subject)) ∧
    (∀ e s, (convFingerprintOf e s).length = 12) ∧
    (∀ e s, (genConversationId [("email", .str e)] (some s)).length = 17) ∧
    genConversationId [("email", .str "a@b.com")] (some "Help") =
      "conv_832c0b803ee7" := by
  refine ⟨fun si subj => rfl, convFingerprintOf_length, fun e s => ?_, ?_⟩
  · show ("conv_" ++ convFingerprintOf e (subjectOrDefault (some s))).length = 17
    rw [String.length_append, convFingerprintOf_length]
    decide
  · decide

/-! ## Filename-extension lemmas for the classifier -/

theorem splitOnChar_ne_nil (c : Char) (cs : List Char) :
    splitOnChar c cs ≠ [] := by
  cases cs with
  | nil => simp [splitOnChar]
  | cons x xs =>
    by_cases h : x = c
    · simp [splitOnChar, h]
    · simp only [splitOnChar, h, if_false]
      cases hs : splitOnChar c xs <;> simp

theorem splitOnChar_no_sep (c : Char) (ys : List Char) (h : c ∉ ys) :
    splitOnChar c ys = [ys] := by
  induction ys with
  | nil => rfl
  | cons y ys ih =>
    have hy : ¬ y = c := by
      intro e
      exact h (by simp [e])
    have hys : c ∉ ys := fun hm => h (List.mem_cons_of_mem _ hm)
    simp [splitOnChar, hy, ih hys]

theorem splitOnChar_two_le (c : Char) (zs : List Char) (h : c ∈ zs) :
    2 ≤ (splitOnChar c zs).length := by
  induction zs with
  | nil => cases h
  | cons z zs ih =>
    by_cases hz : z = c
    · have step : splitOnChar c (z :: zs) = [] :: splitOnChar c zs := by
        simp [splitOnChar, hz]
      rw [step, List.length_cons]
      have h1 : 0 < (splitOnChar c zs).length :=
        List.length_pos.mpr (splitOnChar_ne_nil c zs)
      omega
    · have hm : c ∈ zs := by
        rcases List.mem_cons.mp h with h1 | h1
        · exact absurd h1.symm hz
        · exact h1
      simp only [splitOnChar, hz, if_false]
      cases hs : splitOnChar c zs with
      | nil => exact absurd hs (splitOnChar_ne_nil c zs)
      | cons g gs =>
        have h2 := ih hm
        rw [hs] at h2
        simpa using h2

theorem splitOnChar_getLast_of_suffix (c : Char) (xs ys : List Char)
    (h : c ∉ ys) :
    (splitOnChar c (xs ++ c :: ys)).getLast? = some ys := by
  induction xs with
  | nil =>
    show (splitOnChar c (c :: ys)).getLast? = some ys
    simp only [splitOnChar, if_pos rfl]
    rw [splitOnChar_no_sep c ys h]
    rfl
  | cons x xs ih =>
    by_cases hx : x = c
    · have step : splitOnChar c (x :: (xs ++ c :: ys)) =
          [] :: splitOnChar c (xs ++ c :: ys) := by
        simp [splitOnChar, hx]
      rw [List.cons_append, step]
      cases hs : splitOnChar c (xs ++ c :: ys) with
      | nil => exact absurd hs (splitOnChar_ne_nil c (xs ++ c :: ys))
      | cons g gs =>
        rw [List.getLast?_cons_cons, ← hs]
        exact ih
    · cases hs : splitOnChar c (xs ++ c :: ys) with
      | nil => exact absurd hs (splitOnChar_ne_nil c (xs ++ c :: ys))
      | cons g gs =>
        have step : splitOnChar c (x :: (xs ++ c :: ys)) =
            (x :: g) :: gs := by
          simp only [splitOnChar, hx, if_false, hs]
        rw [List.cons_append, step]
        cases gs with
        | nil =>
          have h2 := splitOnChar_two_le c (xs ++ c :: ys) (by simp)
          rw [hs] at h2
          simp at h2
        | cons g2 gs2 =>
          rw [List.getLast?_cons_cons]
          have h3 := ih
          rw [hs, List.getLast?_cons_cons] at h3
          exact h3

theorem fnExt_of_pdf_suffix (fn : String) (pre : List Char)
    (h : (pyLower fn).data = pre ++ ('.' :: ['p', 'd', 'f'])) :
    fnExt fn = "pdf" := by
  unfold fnExt
  rw [h, splitOnChar_getLast_of_suffix '.' pre ['p', 'd', 'f'] (by decide)]
  rfl

/-- C5 (amended): whenever the fileTypeHint is absent, empty, or not a key
of the classifier's MIME table, a filename whose lower-casing ends in
`.pdf` forces format `pdf`, regardless of the content body. -/
theorem classify_pdf_extension (content : PyVal) (fileType : Option String)
    (fn : String) (pre : List Char) (md : Option PyVal)
    (hft : ftMatch fileType = Option.none)
    (h : (pyLower fn).data = pre ++ ('.' :: ['p', 'd', 'f'])) :
    (classify content fileType (some fn) md).format = "pdf" := by
  have hext : fnExt fn = "pdf" := fnExt_of_pdf_suffix fn pre h
  have hfn : ¬ fn = "" := by
    intro e
    subst e
    simp [pyLower] at h
  simp [classify, determineFormat, hft, fnMatch, hfn, hext]

theorem classify_pdf_extension_witness :
    ftMatch Option.none = Option.none ∧
    (pyLower "Report.PDF").data = "report".data ++ ('.' :: ['p', 'd', 'f']) ∧
    (classify (.str "hello") Option.none (some "Report.PDF")
      Option.none).format = "pdf" :=
  ⟨rfl, by decide,
    classify_pdf_extension (.str "hello") Option.none "Report.PDF"
      "report".data Option.none rfl (by decide)⟩

/-- C5 (counterexample): the claim quantifies over inputs where a
fileTypeHint is also supplied, but the hint check precedes the filename
check — content `"hello"` with hint `application/json` and filename
`x.pdf` classifies as `json`, not `pdf`. -/
theorem classify_pdf_extension_cex :
    (classify (.str "hello") (some "application/json") (some "x.pdf")
      Option.none).format = "json" ∧
    (classify (.str "hello") (some "application/json") (some "x.pdf")
      Option.none).format ≠ "pdf" := by
  constructor
  · rfl
  · decide

/-- All keyword triggers of `_determine_intent`, in order. -/
def anyIntentKeyword (cs : String) : Bool :=
  ["invoice", "bill", "payment", "charge", "resume", "cv", "experience",
   "education", "order", "purchase", "buy", "cart", "support", "help",
   "issue", "problem", "application", "apply", "form"].any
    (fun w => pyIn w cs)

/-- Whether a value is a Python string. -/
def isStrVal : PyVal → Bool
  | .str _ => true
  | _ => false

/-- C9: `classify` is total on any content value (everything here is a
total function of the `PyVal` argument, including `None` and non-string,
non-mapping values), and on total ambiguity — no effective hint, no
extension match, content neither dict nor string, no intent keyword — it
returns format `unknown` and intent `general_processing`. -/
theorem classify_total_defaults (content : PyVal)
    (fileType filename : Option String) (md : Option PyVal)
    (hft : ftMatch fileType = Option.none)
    (hfn : fnMatch filename = Option.none)
    (hdict : isDictVal content = false)
    (hstr : isStrVal content = false)
    (hkw : anyIntentKeyword (pyLower (pyStr content)) = false) :
    (classify content fileType filename md).format = "unknown" ∧
    (classify content fileType filename md).intent = "general_processing" := by
  have hjson : isJsonString content = false := by
    cases content <;> simp_all [isJsonString, isStrVal]
  have hfmt : determineFormat content fileType filename = "unknown" := by
    unfold determineFormat
    rw [hft, hfn]
    cases content <;> simp_all [isDictVal, isStrVal]
  have hint : determineIntent content "unknown" = "general_processing" := by
    unfold determineIntent
    simp only [anyIntentKeyword, List.any_cons, List.any_nil,
      Bool.or_eq_false_iff] at hkw
    obtain ⟨h1, h2, h3, h4, h5, h6, h7, h8, h9, h10, h11, h12, h13, h14,
      h15, h16, h17, h18, h19, -⟩ := hkw
    simp [h1, h2, h3, h4, h5, h6, h7, h8, h9, h10, h11, h12, h13, h14,
      h15, h16, h17, h18, h19]
  refine ⟨?_, ?_⟩
  · simpa [classify] using hfmt
  · simp only [classify]
    rw [hfmt, hint]

theorem classify_total_defaults_witness :
    ftMatch Option.none = Option.none ∧
    fnMatch Option.none = Option.none ∧
    isDictVal PyVal.none = false ∧
    isStrVal PyVal.none = false ∧
    anyIntentKeyword (pyLower (pyStr PyVal.none)) = false ∧
    (classify PyVal.none Option.none Option.none Option.none).format =
      "unknown" ∧
    (classify PyVal.none Option.none Option.none Option.none).intent =
      "general_processing" :=
  ⟨rfl, rfl, rfl, rfl, by decide,
    (classify_total_defaults PyVal.none Option.none Option.none Option.none
      rfl rfl rfl rfl (by decide)).1,
    (classify_total_defaults PyVal.none Option.none Option.none Option.none
      rfl rfl rfl rfl (by decide)).2⟩

/-! ## Which session fields the strategies touch -/

theorem alookup_eq_none_of_not_mem_keys {α : Type} (l : List (String × α))
    (f : String) (h : f ∉ l.map Prod.fst) : alookup l f = Option.none := by
  induction l with
  | nil => rfl
  | cons kv rest ih =>
    simp only [List.map_cons, List.mem_cons, not_or] at h
    have hne : ¬ kv.1 = f := fun e => h.1 e.symm
    obtain ⟨k1, v1⟩ := kv
    simp only [alookup, if_neg hne]
    exact ih h.2

theorem keys_map_snd {α β : Type} (g : α → β) (l : List (String × α)) :
    (l.map (fun kv => (kv.1, g kv.2))).map Prod.fst = l.map Prod.fst := by
  induction l with
  | nil => rfl
  | cons kv rest ih => simp [ih]

theorem mem_keys_aset {α : Type} (l : List (String × α)) (k f : String)
    (v : α) :
    f ∈ (aset l k v).map Prod.fst ↔ f = k ∨ f ∈ l.map Prod.fst := by
  induction l with
  | nil => simp [aset, eq_comm]
  | cons kv rest ih =>
    obtain ⟨k1, v1⟩ := kv
    by_cases h : k1 = k
    · have step : aset ((k1, v1) :: rest) k v = (k1, v) :: rest := by
        simp [aset, h]
      rw [step]
      subst h
      simp only [List.map_cons, List.mem_cons]
      tauto
    · have step : aset ((k1, v1) :: rest) k v = (k1, v1) :: aset rest k v := by
        simp [aset, h]
      rw [step]
      simp only [List.map_cons, List.mem_cons, ih]
      tauto

/-- Updating a session leaves any field outside the update keys (and not
`updated_at`) untouched, in every hash. -/
theorem rawField_updateSession (st : RedisState) (sid : String)
    (updates : List (String × PyVal)) (now k2 f : String)
    (h1 : f ∉ updates.map Prod.fst) (h2 : f ≠ "updated_at") :
    rawField (updateSession st sid updates now).2 k2 f = rawField st k2 f := by
  unfold updateSession
  by_cases hex : hexists st (sessionKey sid)
  · simp only [hex, eq_self_iff_true, if_true]
    unfold rawField hsetAll
    rw [alookup_aset]
    by_cases hk : sessionKey sid = k2
    · rw [if_pos hk]
      simp only [Option.getD_some]
      rw [alookup_asetAll]
      have hnone : alookup
          (((aset updates "updated_at" (.str now)).map
            (fun kv => (kv.1, dumpField kv.2))).reverse) f = Option.none := by
        apply alookup_eq_none_of_not_mem_keys
        rw [List.map_reverse, List.mem_reverse, keys_map_snd, mem_keys_aset]
        push_neg
        exact ⟨h2, h1⟩
      rw [hnone]
      unfold hgetall
      rw [hk]
    · rw [if_neg hk]
  · rw [Bool.not_eq_true] at hex
    rw [hex]
    rfl

/-- `add_processing_step` only ever writes `processing_history` (plus the
`updated_at` stamp). -/
theorem rawField_addProcessingStep (st : RedisState)
    (sid agentName : String) (result : PyVal) (ts now k2 f : String)
    (h1 : f ≠ "processing_history") (h2 : f ≠ "updated_at") :
    rawField (addProcessingStep st sid agentName result ts now).2 k2 f =
      rawField st k2 f := by
  unfold addProcessingStep
  cases hgs : getSession st sid with
  | none => rfl
  | some sess =>
    dsimp only
    cases hph : alookup sess "processing_history" with
    | none => rfl
    | some v =>
      cases v <;> try rfl
      case list hist =>
        dsimp only
        exact rawField_updateSession st sid _ now k2 f (by simp [h1]) h2

/-- `store_extracted_data` only ever writes `extracted_data` (plus the
`updated_at` stamp). -/
theorem rawField_storeExtractedData (st : RedisState)
    (sid dataKey : String) (dataValue : PyVal) (now k2 f : String)
    (h1 : f ≠ "extracted_data") (h2 : f ≠ "updated_at") :
    rawField (storeExtractedData st sid dataKey dataValue now).2 k2 f =
      rawField st k2 f := by
  unfold storeExtractedData
  cases hgs : getSession st sid with
  | none => rfl
  | some sess =>
    dsimp only
    cases hph : alookup sess "extracted_data" with
    | none => rfl
    | some v =>
      cases v <;> try rfl
      case dict ed =>
        dsimp only
        exact rawField_updateSession st sid _ now k2 f (by simp [h1]) h2

/-- The json strategy's `except` branch also only writes
`processing_history` and `updated_at`. -/
theorem rawField_jsonAgentExcept (st : RedisState) (sid e ts3 now3 k2 f : String)
    (h1 : f ≠ "processing_history") (h2 : f ≠ "updated_at") :
    rawField (jsonAgentExcept st sid e ts3 now3).2 k2 f = rawField st k2 f := by
  unfold jsonAgentExcept
  cases hr : addProcessingStep st sid "JSONAgent"
      (.dict (jsonErrResult e)) ts3 now3 with
  | mk r st2 =>
    have hpre : rawField st2 k2 f = rawField st k2 f := by
      have := rawField_addProcessingStep st sid "JSONAgent"
        (.dict (jsonErrResult e)) ts3 now3 k2 f h1 h2
      rw [hr] at this
      exact this
    cases r <;> simpa using hpre

/-- One strategy invocation never touches the `source`, `input_type` or
`intent` fields of any session hash. -/
theorem rawField_applyAgentOp (sid : String) (st : RedisState)
    (op : AgentOp) (k2 f : String)
    (hf : f = "source" ∨ f = "input_type" ∨ f = "intent") :
    rawField (applyAgentOp sid st op) k2 f = rawField st k2 f := by
  have h2 : f ≠ "updated_at" := by
    rcases hf with h | h | h <;> subst h <;> decide
  have hph : f ≠ "processing_history" := by
    rcases hf with h | h | h <;> subst h <;> decide
  have hed : f ≠ "extracted_data" := by
    rcases hf with h | h | h <;> subst h <;> decide
  cases op with
  | emailOp si subj an crm pe pa now =>
    show rawField (emailAgentProcess st sid si subj an crm pe pa now).2 k2 f =
      rawField st k2 f
    unfold emailAgentProcess
    refine rawField_updateSession _ _ _ _ _ _ ?_ h2
    rcases hf with h | h | h <;> subst h <;> simp
  | pdfOp reader dc da ed pa now =>
    show rawField (pdfAgentProcess st sid reader dc da ed pa now).2 k2 f =
      rawField st k2 f
    unfold pdfAgentProcess
    refine rawField_updateSession _ _ _ _ _ _ ?_ h2
    rcases hf with h | h | h <;> subst h <;> simp
  | jsonOp data ts1 now1 now2 ts3 now3 =>
    show rawField (jsonAgentProcess st sid data ts1 now1 now2 ts3 now3).2 k2 f =
      rawField st k2 f
    unfold jsonAgentProcess
    cases hr1 : addProcessingStep st sid "JSONAgent"
        (.dict (jsonOkResult data)) ts1 now1 with
    | mk r1 st1 =>
      have hpre1 : rawField st1 k2 f = rawField st k2 f := by
        have := rawField_addProcessingStep st sid "JSONAgent"
          (.dict (jsonOkResult data)) ts1 now1 k2 f hph h2
        rw [hr1] at this
        exact this
      cases r1 with
      | error e =>
        dsimp only
        rw [rawField_jsonAgentExcept st1 sid e ts3 now3 k2 f hph h2]
        exact hpre1
      | ok b =>
        dsimp only
        cases hr2 : storeExtractedData st1 sid "json_data" data now2 with
        | mk r2 st2 =>
          have hpre2 : rawField st2 k2 f = rawField st1 k2 f := by
            have := rawField_storeExtractedData st1 sid "json_data" data
              now2 k2 f hed h2
            rw [hr2] at this
            exact this
          cases r2 with
          | error e =>
            dsimp only
            rw [rawField_jsonAgentExcept st2 sid e ts3 now3 k2 f hph h2]
            rw [hpre2, hpre1]
          | ok b2 =>
            dsimp only
            rw [hpre2, hpre1]

/-- Arbitrary sequences of strategy invocations never touch `source`,
`input_type` or `intent`. -/
theorem rawField_foldAgentOps (sid : String) (ops : List AgentOp)
    (st : RedisState) (k2 f : String)
    (hf : f = "source" ∨ f = "input_type" ∨ f = "intent") :
    rawField (ops.foldl (applyAgentOp sid) st) k2 f = rawField st k2 f := by
  induction ops generalizing st with
  | nil => rfl
  | cons op rest ih =>
    show rawField (rest.foldl (applyAgentOp sid) (applyAgentOp sid st op)) k2 f
      = rawField st k2 f
    rw [ih (applyAgentOp sid st op), rawField_applyAgentOp sid st op k2 f hf]

/-- C3 (amended): for every session and every sequence of strategy
invocations on it, the stored `source`, `input_type` and `intent` fields
keep their creation-time values (the strategies do, however, write
further top-level result fields — see the counterexample). -/
theorem session_identity_fields_preserved (ops : List AgentOp)
    (st : RedisState) (sid source inputType intentVal ts : String) :
    rawField (ops.foldl (applyAgentOp sid)
        (createSession st sid source inputType intentVal ts).2)
      (sessionKey sid) "source" = some source ∧
    rawField (ops.foldl (applyAgentOp sid)
        (createSession st sid source inputType intentVal ts).2)
      (sessionKey sid) "input_type" = some inputType ∧
    rawField (ops.foldl (applyAgentOp sid)
        (createSession st sid source inputType intentVal ts).2)
      (sessionKey sid) "intent" = some intentVal := by
  have hcreate : ∀ f v, (f = "source" ∧ v = source) ∨
      (f = "input_type" ∧ v = inputType) ∨ (f = "intent" ∧ v = intentVal) →
      rawField (createSession st sid source inputType intentVal ts).2
        (sessionKey sid) f = some v := by
    intro f v hf
    unfold createSession expireKey sadd hsetAll rawField
    dsimp only
    rw [alookup_aset, if_pos rfl]
    simp only [Option.getD_some]
    rw [alookup_asetAll]
    rcases hf with ⟨hf, hv⟩ | ⟨hf, hv⟩ | ⟨hf, hv⟩ <;> subst hf <;> subst hv <;>
      simp [alookup, dumpField, pyStr]
  refine ⟨?_, ?_, ?_⟩
  · rw [rawField_foldAgentOps sid ops _ _ _ (Or.inl rfl)]
    exact hcreate "source" source (Or.inl ⟨rfl, rfl⟩)
  · rw [rawField_foldAgentOps sid ops _ _ _ (Or.inr (Or.inl rfl))]
    exact hcreate "input_type" inputType (Or.inr (Or.inl ⟨rfl, rfl⟩))
  · rw [rawField_foldAgentOps sid ops _ _ _ (Or.inr (Or.inr rfl))]
    exact hcreate "intent" intentVal (Or.inr (Or.inr ⟨rfl, rfl⟩))

/-- Store state after creating a session and running the pdf strategy
once on it (with a whole-document reader failure). -/
def c3runState : RedisState :=
  applyAgentOp "s1"
    (createSession emptyRedis "s1" "report.pdf" "pdf" "document_processing"
      "t0").2
    (.pdfOp (.error "bad pdf") .none .none .none "t1" "t2")

/-- C3 (counterexample): a single pdf strategy invocation adds the
top-level field `agent` to the session hash — a field that is neither one
of the four fields the claim allows to change nor present at creation, so
the claim's "no other top-level field is added or modified" is false. -/
theorem session_fields_cex :
    (rawField c3runState (sessionKey "s1") "agent").isSome = true ∧
    ("agent" ∉ (["processing_history", "extracted_data", "status",
      "updated_at"] : List String)) ∧
    rawField (createSession emptyRedis "s1" "report.pdf" "pdf"
        "document_processing" "t0").2 (sessionKey "s1") "agent" =
      Option.none :=
  ⟨rfl, by decide, rfl⟩

/-! ## Page markers survive `strip()` -/

theorem infix_dropWhile_of_head (p : Char → Bool) (c1 : Char)
    (m1 s : List Char) (hh : p c1 = false) (h : (c1 :: m1) <:+: s) :
    (c1 :: m1) <:+: s.dropWhile p := by
  obtain ⟨u, v, rfl⟩ := h
  rw [List.append_assoc, List.dropWhile_append]
  split
  · rw [List.cons_append, List.dropWhile_cons_of_neg (by simp [hh])]
    exact ⟨[], v, by simp⟩
  · exact ⟨u.dropWhile p, v, by simp⟩

theorem infix_pyStripList (c1 c2 : Char) (mid s : List Char)
    (h1 : isPyWs c1 = false) (h2 : isPyWs c2 = false)
    (h : (c1 :: (mid ++ [c2])) <:+: s) :
    (c1 :: (mid ++ [c2])) <:+: pyStripList s := by
  unfold pyStripList
  have step1 : (c1 :: (mid ++ [c2])) <:+: s.dropWhile isPyWs :=
    infix_dropWhile_of_head isPyWs c1 (mid ++ [c2]) s h1 h
  unfold List.rdropWhile
  have hrev : (c2 :: (mid.reverse ++ [c1])) <:+:
      (s.dropWhile isPyWs).reverse := by
    have h3 := step1.reverse
    simpa using h3
  have step2 := infix_dropWhile_of_head isPyWs c2 (mid.reverse ++ [c1]) _
    h2 hrev
  have h4 := step2.reverse
  simpa using h4

theorem pageMarker_shape (n : Nat) :
    (pageMarker n).data =
      '-' :: (("-- Page ".data ++ (toString n).data ++
        " (Error extracting text) --".data) ++ ['-']) := by
  show ("--- Page " ++ toString n ++ " (Error extracting text) ---").data = _
  have ha : ("--- Page " : String).data = '-' :: "-- Page ".data := by decide
  have hb : (" (Error extracting text) ---" : String).data =
      " (Error extracting text) --".data ++ ['-'] := by decide
  simp [String.data_append, ha, hb]

/-- C7 (amended): the pdf strategy is total for every reader outcome — it
assembles a result whose top-level keys are fixed (and include no
`status` field), and every page whose extraction failed contributes its
per-page placeholder marker to the extracted text rather than aborting
the document. -/
theorem pdfAgentProcess_page_errors (st : RedisState) (sid : String)
    (reader : Except String (List (Except String String)))
    (dc da ed : PyVal) (pa now : String) :
    ((pdfAgentProcess st sid reader dc da ed pa now).1).map Prod.fst =
      ["agent", "document_classification", "extracted_text",
       "document_analysis", "extracted_data", "processed_at"] ∧
    (∀ (pages : List (Except String String)) (i : Nat) (e : String),
      reader = .ok pages → pages[i]? = some (.error e) →
      (pageMarker (i + 1)).data <:+: (pdfExtractText reader).data) := by
  constructor
  · rfl
  · intro pages i e hr hp
    subst hr
    show (pageMarker (i + 1)).data <:+:
      pyStripList ((pages.enum.map (fun p => (pageChunk p).data)).flatten)
    have hmem : (pageChunk (i, Except.error e)).data ∈
        pages.enum.map (fun p => (pageChunk p).data) := by
      have henum : pages.enum[i]? = some (i, Except.error e) := by
        rw [List.getElem?_enum, hp]
        rfl
      exact List.mem_map_of_mem _ (List.getElem?_mem henum)
    have hinfix0 : (pageChunk (i, Except.error e)).data <:+:
        (pages.enum.map (fun p => (pageChunk p).data)).flatten :=
      List.infix_of_mem_flatten hmem
    have hchunk : (pageChunk (i, Except.error e)).data =
        '\n' :: ((pageMarker (i + 1)).data ++ ['\n']) := by
      show ("\n" ++ pageMarker (i + 1) ++ "\n").data = _
      simp [String.data_append]
    have hmarker : (pageMarker (i + 1)).data <:+:
        (pages.enum.map (fun p => (pageChunk p).data)).flatten := by
      refine List.IsInfix.trans ?_ hinfix0
      rw [hchunk]
      exact ⟨['\n'], ['\n'], by simp⟩
    rw [pageMarker_shape] at hmarker ⊢
    exact infix_pyStripList '-' '-' _ _ (by decide) (by decide) hmarker

/-- C7 (counterexample): on unreadable page bytes the strategy result
does contain the per-page placeholder marker, but it has no `status`
field at all — so the claim's `status = success` is false. -/
theorem pdfAgentProcess_no_status_cex :
    alookup (pdfAgentProcess emptyRedis "s1" (.ok [.error "boom"]) .none .none
      .none "t1" "t2").1 "status" = Option.none ∧
    alookup (pdfAgentProcess emptyRedis "s1" (.ok [.error "boom"]) .none .none
      .none "t1" "t2").1 "extracted_text" =
      some (.str "--- Page 1 (Error extracting text) ---") :=
  ⟨rfl, rfl⟩

theorem pdfAgentProcess_page_errors_witness :
    ((pdfAgentProcess emptyRedis "s1" (.ok [.error "boom"]) .none .none .none
      "t1" "t2").1).map Prod.fst =
      ["agent", "document_classification", "extracted_text",
       "document_analysis", "extracted_data", "processed_at"] ∧
    (pageMarker 1).data <:+: (pdfExtractText (.ok [.error "boom"])).data :=
  ⟨(pdfAgentProcess_page_errors emptyRedis "s1" (.ok [.error "boom"]) .none
      .none .none "t1" "t2").1,
    (pdfAgentProcess_page_errors emptyRedis "s1" (.ok [.error "boom"]) .none
      .none .none "t1" "t2").2 [.error "boom"] 0 "boom" rfl rfl⟩

/-! ## Parsed JSON strings are strictly shorter than their source text -/

theorem unescapeTok_length (l : List Char) (ec : Char) (rest2 : List Char)
    (h : unescapeTok l = some (ec, rest2)) : rest2.length + 1 ≤ l.length := by
  simp only [unescapeTok] at h
  split at h
  · split at h
    · cases h
      simp
    · cases h
  · rw [Option.map_eq_some'] at h
    obtain ⟨a, ha, hfa⟩ := h
    cases hfa
    simp
  · cases h

theorem parseStrBody_length : ∀ (fuel : Nat) (cs body r : List Char),
    parseStrBody fuel cs = some (body, r) → body.length + 1 ≤ cs.length := by
  intro fuel
  induction fuel with
  | zero =>
    intro cs body r h
    simp [parseStrBody] at h
  | succ fuel ih =>
    intro cs body r h
    cases cs with
    | nil => simp [parseStrBody] at h
    | cons c rest =>
      simp only [parseStrBody] at h
      by_cases hq : c = '"'
      · rw [if_pos hq] at h
        cases h
        simp
      · rw [if_neg hq] at h
        by_cases hb : c = '\\'
        · rw [if_pos hb] at h
          split at h
          · rename_i ec rest2 htok
            cases hrec : parseStrBody fuel rest2 with
            | none =>
              rw [hrec] at h
              simp at h
            | some br =>
              obtain ⟨b2, r2⟩ := br
              rw [hrec] at h
              simp at h
              obtain ⟨hb1, hb2⟩ := h
              have h1 := ih rest2 b2 r2 hrec
              have h2 := unescapeTok_length rest ec rest2 htok
              subst hb1
              simp
              omega
          · cases h
        · rw [if_neg hb] at h
          cases hrec : parseStrBody fuel rest with
          | none =>
            rw [hrec] at h
            simp at h
          | some br =>
            obtain ⟨b2, r2⟩ := br
            rw [hrec] at h
            simp at h
            obtain ⟨hb1, hb2⟩ := h
            have h1 := ih rest b2 r2 hrec
            subst hb1
            simp
            omega

theorem parseNumber_not_str (cs : List Char) (v : PyVal) (r : List Char)
    (h : parseNumber cs = some (v, r)) : ∀ t, v ≠ .str t := by
  intro t
  simp only [parseNumber] at h
  repeat
    first
    | exact Option.noConfusion h
    | (cases h; simp)
    | (rw [Option.map_eq_some'] at h
       obtain ⟨a, ha, hfa⟩ := h
       cases hfa
       simp)
    | split_ifs at h
    | split at h

theorem parseArrItems_shape : ∀ (fuel : Nat) (cs : List Char)
    (acc : List PyVal) (v : PyVal) (r : List Char),
    parseArrItems fuel cs acc = some (v, r) → ∃ xs, v = .list xs := by
  intro fuel
  induction fuel with
  | zero =>
    intro cs acc v r h
    simp [parseArrItems] at h
  | succ fuel ih =>
    intro cs acc v r h
    simp only [parseArrItems] at h
    split at h
    · split at h
      · exact ih _ _ _ _ h
      · cases h
        exact ⟨_, rfl⟩
      · exact Option.noConfusion h
    · exact Option.noConfusion h

theorem parseObjItems_shape : ∀ (fuel : Nat) (cs : List Char)
    (acc : List (String × PyVal)) (v : PyVal) (r : List Char),
    parseObjItems fuel cs acc = some (v, r) → ∃ kvs, v = .dict kvs := by
  intro fuel
  induction fuel with
  | zero =>
    intro cs acc v r h
    simp [parseObjItems] at h
  | succ fuel ih =>
    intro cs acc v r h
    simp only [parseObjItems] at h
    repeat
      first
      | exact Option.noConfusion h
      | exact ih _ _ _ _ h
      | (cases h; exact ⟨_, rfl⟩)
      | split at h

theorem parseVal_str_length : ∀ (fuel : Nat) (cs : List Char) (t : String)
    (r : List Char), parseVal fuel cs = some (.str t, r) →
    t.length + 2 ≤ cs.length := by
  intro fuel cs t r h
  cases fuel with
  | zero => simp [parseVal] at h
  | succ fuel =>
    cases cs with
    | nil => simp [parseVal] at h
    | cons c rest =>
      simp only [parseVal] at h
      by_cases hq : c = '"'
      · rw [if_pos hq] at h
        cases hps : parseStrBody (fuel + 1) rest with
        | none =>
          rw [hps] at h
          exact Option.noConfusion h
        | some br =>
          obtain ⟨body, r2⟩ := br
          rw [hps] at h
          simp only at h
          cases h
          have h1 := parseStrBody_length (fuel + 1) rest body _ hps
          show (⟨body⟩ : String).length + 2 ≤ (c :: rest).length
          have h2 : (⟨body⟩ : String).length = body.length := rfl
          simp [h2]
          omega
      · rw [if_neg hq] at h
        by_cases hbr : c = '['
        · rw [if_pos hbr] at h
          split at h
          · cases h
          · obtain ⟨xs, hxs⟩ := parseArrItems_shape _ _ _ _ _ h
            exact absurd hxs (by simp)
        · rw [if_neg hbr] at h
          by_cases hbc : c = '\x7b'
          · rw [if_pos hbc] at h
            split at h
            · cases h
            · obtain ⟨kvs, hkvs⟩ := parseObjItems_shape _ _ _ _ _ h
              exact absurd hkvs (by simp)
          · rw [if_neg hbc] at h
            repeat
              first
              | exact Option.noConfusion h
              | (cases h)
              | exact absurd rfl (parseNumber_not_str _ _ _ h t)
              | split at h

theorem jsonLoads_str_ne (s : String) (t : String)
    (h : jsonLoads s = some (.str t)) : t ≠ s := by
  intro he
  subst he
  unfold jsonLoads at h
  cases hpv : parseVal (4 * t.length + 8) (skipJWs t.data) with
  | none =>
    rw [hpv] at h
    exact Option.noConfusion h
  | some vr =>
    obtain ⟨v, rest⟩ := vr
    rw [hpv] at h
    simp only at h
    split_ifs at h
    cases h
    have h1 := parseVal_str_length _ _ _ _ hpv
    have h2 : (skipJWs t.data).length ≤ t.data.length := by
      unfold skipJWs
      have h3 : t.data.dropWhile isJsonWs <:+ t.data := List.dropWhile_suffix _
      exact h3.length_le
    have h4 : t.length = t.data.length := rfl
    omega

theorem parseField_123 : parseField "123" = PyVal.int 123 := rfl

theorem parseField_true : parseField "true" = PyVal.bool true := rfl

/-- C10: `get_session` attempts a JSON parse of every stored field value
and keeps the parsed value when parsing succeeds; consequently the
create/get round trip maps a scalar source string that itself parses as
JSON to the parsed value ("123" → the int 123, "true" → True), and the
per-field round trip is the identity exactly for scalar strings that do
not parse as JSON. -/
theorem getSession_parse_roundtrip :
    (∀ (fields : List (String × String)) (f : String),
      alookup (fields.map (fun kv => (kv.1, parseField kv.2))) f =
        (alookup fields f).map parseField) ∧
    (∀ v : String, parseField v = .str v ↔ jsonLoads v = Option.none) ∧
    (∀ st sid inputType intentVal ts,
      sessionField (createSession st sid "123" inputType intentVal ts).2 sid
        "source" = some (.int 123)) ∧
    (∀ st sid inputType intentVal ts,
      sessionField (createSession st sid "true" inputType intentVal ts).2 sid
        "source" = some (.bool true)) := by
  refine ⟨fun fields f => alookup_map_val parseField fields f, ?_, ?_, ?_⟩
  · intro v
    constructor
    · intro h
      cases hj : jsonLoads v with
      | none => rfl
      | some w =>
        exfalso
        unfold parseField at h
        rw [hj] at h
        simp only [Option.getD_some] at h
        cases w with
        | str t =>
          have hne := jsonLoads_str_ne v t hj
          injection h with h2
          exact hne h2
        | none => exact PyVal.noConfusion h
        | bool b => exact PyVal.noConfusion h
        | int n => exact PyVal.noConfusion h
        | num q => exact PyVal.noConfusion h
        | list xs => exact PyVal.noConfusion h
        | dict kvs => exact PyVal.noConfusion h
        | bytes bs => exact PyVal.noConfusion h
        | inf neg => exact PyVal.noConfusion h
        | nan => exact PyVal.noConfusion h
    · intro h
      unfold parseField
      rw [h]
      rfl
  · intro st sid inputType intentVal ts
    simp [sessionField, createSession, expireKey, sadd, hsetAll, getSession,
      hexists, hgetall, alookup_aset, alookup_map_val, alookup_asetAll,
      asetAll, alookup, dumpField, pyStr, parseField_123]
  · intro st sid inputType intentVal ts
    simp [sessionField, createSession, expireKey, sadd, hsetAll, getSession,
      hexists, hgetall, alookup_aset, alookup_map_val, alookup_asetAll,
      asetAll, alookup, dumpField, pyStr, parseField_true]

/-! ## Confidence values under binary64 arithmetic -/

theorem fp64_lit7 : fp64OfRat 7 10 = ⟨6305039478318694, 53⟩ := rfl

theorem fp64_sum72 :
    fpAdd (fp64OfRat 7 10) (fp64OfRat 2 10) = ⟨8106479329266892, 53⟩ := rfl

theorem fp64_sum721 :
    fpAdd (fpAdd (fp64OfRat 7 10) (fp64OfRat 2 10)) (fp64OfRat 1 10) =
      ⟨9007199254740991, 53⟩ := rfl

theorem fp64_sum71 :
    fpAdd (fp64OfRat 7 10) (fp64OfRat 1 10) = ⟨7205759403792793, 53⟩ := rfl

theorem calcConfidence_both (f i : String)
    (h1 : f = "pdf" ∨ f = "json" ∨ f = "email")
    (h2 : i ≠ "general_processing") :
    calcConfidence f i = (9007199254740991 : ℚ) / 9007199254740992 := by
  unfold calcConfidence
  dsimp only
  rw [if_pos h1, if_pos h2, fp64_sum721,
    min_eq_left (by norm_num [Dyad.toQ])]
  norm_num [Dyad.toQ]

theorem calcConfidence_fmt_only (f i : String)
    (h1 : f = "pdf" ∨ f = "json" ∨ f = "email")
    (h2 : ¬ i ≠ "general_processing") :
    calcConfidence f i = (2026619832316723 : ℚ) / 2251799813685248 := by
  unfold calcConfidence
  dsimp only
  rw [if_pos h1, if_neg h2, fp64_sum72,
    min_eq_left (by norm_num [Dyad.toQ])]
  norm_num [Dyad.toQ]

theorem calcConfidence_intent_only (f i : String)
    (h1 : ¬ (f = "pdf" ∨ f = "json" ∨ f = "email"))
    (h2 : i ≠ "general_processing") :
    calcConfidence f i = (7205759403792793 : ℚ) / 9007199254740992 := by
  unfold calcConfidence
  dsimp only
  rw [if_neg h1, if_pos h2, fp64_sum71,
    min_eq_left (by norm_num [Dyad.toQ])]
  norm_num [Dyad.toQ]

theorem calcConfidence_neither (f i : String)
    (h1 : ¬ (f = "pdf" ∨ f = "json" ∨ f = "email"))
    (h2 : ¬ i ≠ "general_processing") :
    calcConfidence f i = (3152519739159347 : ℚ) / 4503599627370496 := by
  unfold calcConfidence
  dsimp only
  rw [if_neg h1, if_neg h2, fp64_lit7,
    min_eq_left (by norm_num [Dyad.toQ])]
  norm_num [Dyad.toQ]

/-- C1 (amended): under the program's binary64 float arithmetic the
confidence is at least the double 0.7 (= 3152519739159347/2^52) and
strictly below 1.0 — it never equals 1.0, because 0.7 + 0.2 + 0.1 rounds
to 0.9999999999999999 — and it equals that maximal double
(= (2^53 - 1)/2^53) exactly when the determined format is one of
pdf/json/email and the determined intent is not `general_processing`. -/
theorem classify_confidence_bounds_fp (content : PyVal)
    (fileType filename : Option String) (md : Option PyVal) :
    (3152519739159347 : ℚ) / 4503599627370496 ≤
      (classify content fileType filename md).confidence ∧
    (classify content fileType filename md).confidence < 1 ∧
    ((classify content fileType filename md).confidence =
        (9007199254740991 : ℚ) / 9007199254740992 ↔
      (((classify content fileType filename md).format = "pdf" ∨
        (classify content fileType filename md).format = "json" ∨
        (classify content fileType filename md).format = "email") ∧
        (classify content fileType filename md).intent ≠
          "general_processing")) := by
  have hc : (classify content fileType filename md).confidence =
      calcConfidence (determineFormat content fileType filename)
        (determineIntent content (determineFormat content fileType filename)) :=
    rfl
  have hf : (classify content fileType filename md).format =
      determineFormat content fileType filename := rfl
  have hi : (classify content fileType filename md).intent =
      determineIntent content (determineFormat content fileType filename) :=
    rfl
  rw [hc, hf, hi]
  by_cases h1 : determineFormat content fileType filename = "pdf" ∨
    determineFormat content fileType filename = "json" ∨
    determineFormat content fileType filename = "email"
  · by_cases h2 : determineIntent content
        (determineFormat content fileType filename) ≠ "general_processing"
    · rw [calcConfidence_both _ _ h1 h2]
      refine ⟨by norm_num, by norm_num, ?_⟩
      exact ⟨fun _ => ⟨h1, h2⟩, fun _ => rfl⟩
    · rw [calcConfidence_fmt_only _ _ h1 h2]
      refine ⟨by norm_num, by norm_num, ?_⟩
      constructor
      · intro he
        exfalso
        norm_num at he
      · rintro ⟨-, h2'⟩
        exact absurd h2' h2
  · by_cases h2 : determineIntent content
        (determineFormat content fileType filename) ≠ "general_processing"
    · rw [calcConfidence_intent_only _ _ h1 h2]
      refine ⟨by norm_num, by norm_num, ?_⟩
      constructor
      · intro he
        exfalso
        norm_num at he
      · rintro ⟨h1', -⟩
        exact absurd h1' h1
    · rw [calcConfidence_neither _ _ h1 h2]
      refine ⟨by norm_num, by norm_num, ?_⟩
      constructor
      · intro he
        exfalso
        norm_num at he
      · rintro ⟨h1', -⟩
        exact absurd h1' h1

/-- C1 (counterexample): for content `"order 42"` with hint
`application/json` the classification has format `json` and intent
`order_processing` — the claim then demands confidence = 1.0, but the
program's float sum `0.7 + 0.2 + 0.1` is `0.9999999999999999`, so the
confidence is not 1.0 and the claimed biconditional fails. -/
theorem classify_confidence_one_cex :
    (classify (.str "order 42") (some "application/json") Option.none
      Option.none).format = "json" ∧
    (classify (.str "order 42") (some "application/json") Option.none
      Option.none).intent = "order_processing" ∧
    (classify (.str "order 42") (some "application/json") Option.none
      Option.none).confidence ≠ 1 := by
  refine ⟨rfl, rfl, ?_⟩
  have hc : (classify (.str "order 42") (some "application/json") Option.none
      Option.none).confidence = calcConfidence "json" "order_processing" := rfl
  rw [hc, calcConfidence_both "json" "order_processing"
    (Or.inr (Or.inl rfl)) (by decide)]
  norm_num
